import Mathlib

/-!
Shallow embedding of `src/train.py` (DD2424_COVID19_Project): the balanced
batch loader `calculateDataLoaderTrain`, the epoch runner `trainEpoch`, and
the training orchestrator `train_model` with its checkpoint policy.
Real numbers computed by the python code are modelled as rationals.
-/

/-- Python `int(x)` on a rational `x`: truncation toward zero.
Line 37 of `train.py` applies it to `args_dict.batch * args_dict.covid_percent`. -/
def pyInt (x : ℚ) : ℤ := x.num.tdiv (x.den : ℤ)

/-- Line 37 of `train.py`:
`covid_size = max(int(args_dict.batch * args_dict.covid_percent), 1)`. -/
def covid_size (batch : ℕ) (covid_percent : ℚ) : ℤ :=
  max (pyInt ((batch : ℚ) * covid_percent)) 1

/-- The minority batch size as the spec words it: `max(round(B*p), 1)`. -/
def covid_size_spec (batch : ℕ) (covid_percent : ℚ) : ℤ :=
  max (round ((batch : ℚ) * covid_percent)) 1

/-- Line 40 of `train.py`: the majority loader's batch size,
`args_dict.batch - covid_size`. -/
def majorityBatchSize (batch : ℕ) (covid_percent : ℚ) : ℕ :=
  batch - (covid_size batch covid_percent).toNat

/-- One pass of a PyTorch `DataLoader` over dataset `l` with batch size `k`
and the default `drop_last=False`: consecutive batches of `k` samples, the
last batch possibly smaller. The fuel argument bounds the recursion;
`chunks` supplies `l.length`, which suffices whenever `1 ≤ k`. -/
def chunksAux {α : Type} (k : ℕ) : ℕ → List α → List (List α)
  | 0, _ => []
  | _ + 1, [] => []
  | fuel + 1, a :: l => (a :: l).take k :: chunksAux k fuel ((a :: l).drop k)

/-- The batches one full iteration of a `DataLoader` with batch size `k`
yields over dataset `l` (shuffling is applied to `l` by the caller). -/
def chunks {α : Type} (k : ℕ) (l : List α) : List (List α) :=
  chunksAux k l.length l

/-- Lines 53 and 54 of `train.py`: enumerate the majority batches `bs`
(`for batch_idx, ... in enumerate(dl_non_covid)`), and at each step draw the
minority batch as `next(iter(dl_covid))` — the first `c` samples of a freshly
created, freshly shuffled iterator over the whole minority pool; `shuffles i`
is the shuffle produced by the iterator created at step `i`. -/
def trainEpochPairs {α : Type} (shuffles : ℕ → List α → List α) (c : ℕ)
    (minor : List α) : ℕ → List (List α) → List (List α × List α)
  | _, [] => []
  | i, mb :: rest =>
    (mb, (shuffles i minor).take c) ::
      trainEpochPairs shuffles c minor (i + 1) rest

/-- The combined batch pairs of one training epoch for the configured batch
size and covid percent: majority batches from the majority loader
(lines 40 and 53), a minority batch of `covid_size` samples from a fresh
shuffle each step (lines 42 and 54). -/
def epochBatches {α : Type} (shuffles : ℕ → List α → List α) (batch : ℕ)
    (covid_percent : ℚ) (maj minor : List α) : List (List α × List α) :=
  trainEpochPairs shuffles (covid_size batch covid_percent).toNat minor 0
    (chunks (majorityBatchSize batch covid_percent) maj)

/-- Line 56 of `train.py`: `x_batch = torch.cat((x_batch_nc, x_batch_c))`;
the sample count of the combined batch. -/
def combinedSize {α : Type} (p : List α × List α) : ℕ := p.1.length + p.2.length

/-- An image tensor as the epoch runner sees it: only its leading dimension
(the channel count) matters to the embedded statistics code. -/
structure Img where
  channels : ℕ
deriving DecidableEq

/-- Lines 65 and 70 of `train.py`: the weight `x_batch[0].size(0)` passed to
the running averages — the leading dimension of the first sample of the
combined batch, i.e. its channel count. -/
def codeWeight (x_batch : List Img) : ℕ :=
  match x_batch with
  | [] => 0
  | img :: _ => img.channels

/-- Modelled from the spec: `utils.AverageMeter` (the `utils` module is not
under `src/`), per "running loss average and running accuracy average ...
updated after every batch with a weighted moving average (weight = batch
size)": `update v n` accumulates value `v` with weight `n`, `avg` is the
weighted mean of everything accumulated. -/
structure AverageMeter where
  sum : ℚ
  count : ℕ
deriving DecidableEq

/-- Accumulate one value with its weight. -/
def AverageMeter.update (m : AverageMeter) (val : ℚ) (n : ℕ) : AverageMeter :=
  { sum := m.sum + val * (n : ℚ), count := m.count + n }

/-- The weighted running average. -/
def AverageMeter.avg (m : AverageMeter) : ℚ := m.sum / (m.count : ℚ)

/-- Lines 48 and 65 of `train.py`: the loss meter after one epoch, fed each
batch's loss with the weight the code actually passes, `x_batch[0].size(0)`. -/
def lossMeterCode (batches : List (List Img × ℚ)) : AverageMeter :=
  batches.foldl (fun m b => m.update b.2 (codeWeight b.1)) ⟨0, 0⟩

/-- The loss meter the claim describes: each batch's loss weighted by the
number of samples in the combined batch. -/
def lossMeterClaim (batches : List (List Img × ℚ)) : AverageMeter :=
  batches.foldl (fun m b => m.update b.2 b.1.length) ⟨0, 0⟩

/-- The two model variants imported on line 11 of `train.py`. -/
inductive ModelKind
  | covidnet
  | resnet
deriving DecidableEq

/-- Lines 90 to 93 of `train.py`: `if args_dict.model == "covidnet": ...
elif args_dict.model == "resnet": ...` — there is no else branch, so any
other tag leaves the local `model` unassigned. -/
def selectModel (tag : String) : Option ModelKind :=
  if tag = "covidnet" then some ModelKind.covidnet
  else if tag = "resnet" then some ModelKind.resnet
  else none

/-- How startup can fail: `unboundLocal` is the python `UnboundLocalError`
raised at line 97 (`model.to(args_dict.device)`) when no branch assigned
`model`; `unknownModel` is the explicit rejection the spec calls for. -/
inductive StartupError
  | unboundLocal
  | unknownModel
deriving DecidableEq

/-- Lines 90 to 97 of `train_model`: model construction followed by the first
use of the `model` variable. -/
def train_model_startup (tag : String) : Except StartupError ModelKind :=
  match selectModel tag with
  | some m => Except.ok m
  | none => Except.error StartupError.unboundLocal

/-- The record `utils.save_model` persists (lines 132 to 140 of `train.py`).
The opaque model and optimizer snapshots carry no information any claim
touches and are omitted. -/
structure Checkpoint where
  epoch : ℕ
  best_sensit : ℚ
  valtrack : ℕ
  curr_val : ℚ
deriving DecidableEq

/-- Lines 127 to 140 of `train_model`: one epoch's checkpoint policy. Given
`best_sensit` and `pat_track` before the epoch and the epoch's validation
`accuracy` and `sensitivity_covid`, return `best_sensit` after the epoch
together with the checkpoint saved, if any. -/
def checkpointStep (best_sensit : ℚ) (pat_track : ℕ) (epoch : ℕ)
    (accuracy sensitivity_covid : ℚ) : ℚ × Option Checkpoint :=
  if (0.80 : ℚ) ≤ accuracy then
    if best_sensit < sensitivity_covid then
      let b := max sensitivity_covid best_sensit
      (b, some { epoch := epoch + 1, best_sensit := b, valtrack := pat_track,
                 curr_val := accuracy })
    else
      (best_sensit, none)
  else
    (best_sensit, none)

/-- Trace events of `train_model`'s epoch loop (lines 116 to 146), one
constructor per operation, in source order within an epoch: the training
epoch, the validation pass, the scheduler step on the returned accuracy, the
checkpoint-policy application (with the save it produced, if any), and the
two validation plots. -/
inductive Event
  | trainE (epoch : ℕ)
  | valE (epoch : ℕ)
  | schedStep (epoch : ℕ) (metric : ℚ)
  | policy (epoch : ℕ) (saved : Option Checkpoint)
  | plotSens (epoch : ℕ) (value : ℚ)
  | plotAcc (epoch : ℕ) (value : ℚ)
deriving DecidableEq

/-- The mutable loop state of `train_model`: `best_sensit` (line 104, from
resume) and `pat_track` (line 115). -/
structure LoopState where
  best_sensit : ℚ
  pat_track : ℕ
deriving DecidableEq

/-- One iteration of the loop body, lines 118 to 146. `metrics e` is the pair
`eval.valEpoch` returns at epoch `e`: `(sensitivity_covid, accuracy)`. -/
def epochBody (metrics : ℕ → ℚ × ℚ) (e : ℕ) (s : LoopState) :
    LoopState × List Event :=
  let sens := (metrics e).1
  let acc := (metrics e).2
  let r := checkpointStep s.best_sensit s.pat_track e acc sens
  (⟨r.1, s.pat_track⟩,
    [Event.trainE e, Event.valE e, Event.schedStep e acc, Event.policy e r.2,
     Event.plotSens e sens, Event.plotAcc e acc])

/-- The loop `for epoch in range(args_dict.epochs)`, run from state `s` at
epoch `e` for `n` more epochs: final state and the emitted event trace. -/
def runFrom (metrics : ℕ → ℚ × ℚ) : LoopState → ℕ → ℕ → LoopState × List Event
  | s, _, 0 => (s, [])
  | s, e, n + 1 =>
    let r := epochBody metrics e s
    let t := runFrom metrics r.1 (e + 1) n
    (t.1, r.2 ++ t.2)

/-- Lines 115 to 146 of `train_model`: `pat_track = 0`, then the whole epoch
loop, starting from the resumed `best_sensit` value `b0`. -/
def train_model_run (metrics : ℕ → ℚ × ℚ) (epochs : ℕ) (b0 : ℚ) :
    LoopState × List Event :=
  runFrom metrics ⟨b0, 0⟩ 0 epochs

/-- The value of `best_sensit` after the loop body at epoch `e` runs on `b`. -/
def stepBest (metrics : ℕ → ℚ × ℚ) (e : ℕ) (b : ℚ) : ℚ :=
  (checkpointStep b 0 e (metrics e).2 (metrics e).1).1

/-- The value of `best_sensit` after `n` consecutive epochs starting at epoch
`e` with value `b`. -/
def bestFrom (metrics : ℕ → ℚ × ℚ) : ℕ → ℕ → ℚ → ℚ
  | _, 0, b => b
  | e, n + 1, b => bestFrom metrics (e + 1) n (stepBest metrics e b)

/-- Python `int()` truncates toward zero; on nonnegative arguments that is the
floor. -/
theorem pyInt_eq_floor (x : ℚ) (hx : 0 ≤ x) : pyInt x = ⌊x⌋ := by
  rw [pyInt, Rat.floor_def]
  exact Int.tdiv_eq_ediv (Rat.num_nonneg.mpr hx) (Int.ofNat_nonneg x.den)

/-- C3 counterexample: for `B = 10`, `p = 29/100` the code (line 37,
`max(int(B*p), 1)`) draws 2 minority samples while the claim's formula
`max(round(B*p), 1)` demands 3. -/
theorem C3_counterexample :
    covid_size 10 (29/100) = 2 ∧ covid_size_spec 10 (29/100) = 3 ∧
    (2 : ℤ) ≠ 3 := by
  refine ⟨?_, ?_, by decide⟩
  · norm_num [covid_size, pyInt]; decide
  · norm_num [covid_size_spec, round_eq]

/-- C3 amended: per training step the code draws `max(⌊B*p⌋, 1)` minority
samples — `int()` truncation, not rounding — and `B - max(⌊B*p⌋, 1)` majority
samples; the scenario `B = 10`, `p = 0.3` still yields 3 and 7. -/
theorem C3_truncated_minority_count (B : ℕ) (p : ℚ) (hp : 0 ≤ p) :
    covid_size B p = max ⌊(B : ℚ) * p⌋ 1 ∧
    (B : ℤ) - covid_size B p = (B : ℤ) - max ⌊(B : ℚ) * p⌋ 1 ∧
    covid_size 10 (3/10) = 3 ∧ (10 : ℤ) - covid_size 10 (3/10) = 7 := by
  have h := pyInt_eq_floor ((B : ℚ) * p) (mul_nonneg (by positivity) hp)
  refine ⟨by rw [covid_size, h], by rw [covid_size, h], ?_, ?_⟩ <;>
    norm_num [covid_size, pyInt]

/-- C3 witness: the amended count formula evaluated at `B = 10`, `p = 29/100`. -/
theorem C3_truncated_minority_count_witness :
    covid_size 10 (29/100) = max ⌊(10 : ℚ) * (29/100)⌋ 1 :=
  (C3_truncated_minority_count 10 (29/100) (by norm_num)).1

/-- C1: the checkpoint policy of lines 127 to 140 saves in an epoch iff the
epoch's validation accuracy is at least 0.80 and its covid sensitivity
strictly exceeds `best_sensit` before the epoch; in every other case nothing
is saved and `best_sensit` is unchanged. -/
theorem C1_checkpoint_iff (b : ℚ) (pt e : ℕ) (acc sens : ℚ) :
    ((checkpointStep b pt e acc sens).2.isSome = true ↔
      ((0.80 : ℚ) ≤ acc ∧ b < sens)) ∧
    (¬((0.80 : ℚ) ≤ acc ∧ b < sens) →
      (checkpointStep b pt e acc sens).2 = none ∧
      (checkpointStep b pt e acc sens).1 = b) := by
  unfold checkpointStep
  by_cases h1 : (0.80 : ℚ) ≤ acc <;> by_cases h2 : b < sens <;> simp [h1, h2]

/-- C5: the weight the code feeds the running averages is
`x_batch[0].size(0)` — the first sample's channel count — not the combined
batch's sample count: on two batches of 10 and 4 three-channel images with
losses 1 and 0, both get weight 3, so the code's average is 1/2 while the
batch-size-weighted average the claim describes is 5/7. -/
theorem C5_weight_is_channel_count :
    codeWeight (List.replicate 10 ⟨3⟩) = 3 ∧
    (List.replicate 10 (⟨3⟩ : Img)).length = 10 ∧
    (lossMeterCode [(List.replicate 10 ⟨3⟩, 1),
        (List.replicate 4 ⟨3⟩, 0)]).avg = 1/2 ∧
    (lossMeterClaim [(List.replicate 10 ⟨3⟩, 1),
        (List.replicate 4 ⟨3⟩, 0)]).avg = 5/7 ∧
    (1/2 : ℚ) ≠ 5/7 := by
  refine ⟨rfl, by decide, ?_, ?_, by norm_num⟩ <;>
    norm_num [lossMeterCode, lossMeterClaim, AverageMeter.update,
      AverageMeter.avg, codeWeight, List.replicate]

/-- C7: an unrecognized model tag is not rejected with an "unknown model"
error; lines 90 to 93 simply leave `model` unassigned and line 97 then raises
`UnboundLocalError`. -/
theorem C7_unknown_model_unbound :
    train_model_startup "alexnet" = Except.error StartupError.unboundLocal ∧
    StartupError.unboundLocal ≠ StartupError.unknownModel := by
  exact ⟨rfl, by decide⟩

/-- C8: an out-of-range sensitivity from the validation oracle is not
rejected: at `accuracy = 9/10`, `sensitivity = 3/2 > 1`, `best_sensit = 0`
the orchestrator saves a checkpoint and ratchets `best_sensit` to `3/2`. -/
theorem C8_out_of_range_ratcheted :
    (1 : ℚ) < 3/2 ∧
    (checkpointStep 0 0 5 (9/10) (3/2)).2.isSome = true ∧
    (checkpointStep 0 0 5 (9/10) (3/2)).1 = 3/2 := by
  refine ⟨by norm_num, ?_, ?_⟩ <;> norm_num [checkpointStep]

/-- A `DataLoader` pass over the empty dataset yields no batches. -/
theorem chunksAux_nil {α : Type} (k fuel : ℕ) :
    chunksAux k fuel ([] : List α) = [] := by
  cases fuel <;> rfl

/-- Every batch of a `DataLoader` pass has exactly the configured batch size
`k`, except possibly the last one, which does too when `k` divides the
dataset size. -/
theorem chunksAux_getElem_length {α : Type} (k : ℕ) (hk : 1 ≤ k) :
    ∀ (fuel : ℕ) (l : List α) (i : ℕ) (b : List α),
      l.length ≤ fuel → (chunksAux k fuel l)[i]? = some b →
      (i + 1 < (chunksAux k fuel l).length ∨ k ∣ l.length) →
      b.length = k := by
  intro fuel
  induction fuel with
  | zero =>
    intro l i b hl hb _
    simp [chunksAux] at hb
  | succ fuel ih =>
    intro l i b hl hb hlast
    cases l with
    | nil => simp [chunksAux] at hb
    | cons a t =>
      rw [chunksAux] at hb hlast
      cases i with
      | zero =>
        rw [List.getElem?_cons_zero] at hb
        have hble : k ≤ t.length + 1 := by
          rcases hlast with hlt | hdvd
          · by_contra hgt
            push_neg at hgt
            have hdrop : (a :: t).drop k = [] := by
              rw [List.drop_eq_nil_iff]
              simpa using Nat.le_of_lt hgt
            rw [hdrop, chunksAux_nil] at hlt
            simp at hlt
          · exact Nat.le_of_dvd (Nat.succ_pos _) (by simpa using hdvd)
        have : b = (a :: t).take k := by simpa using hb.symm
        subst this
        simp [List.length_take]
        omega
      | succ i =>
        rw [List.getElem?_cons_succ] at hb
        apply ih ((a :: t).drop k) i b
        · rw [List.length_drop]
          simp only [List.length_cons] at hl ⊢
          omega
        · exact hb
        · rcases hlast with hlt | hdvd
          · left
            simpa using Nat.lt_of_succ_lt_succ (by simpa using hlt)
          · right
            rw [List.length_drop]
            exact Nat.dvd_sub' (by simpa using hdvd) (dvd_refl k)

/-- The epoch runner produces exactly one combined batch per majority batch. -/
theorem trainEpochPairs_length {α : Type} (sh : ℕ → List α → List α) (c : ℕ)
    (minor : List α) : ∀ (bs : List (List α)) (j : ℕ),
      (trainEpochPairs sh c minor j bs).length = bs.length := by
  intro bs
  induction bs with
  | nil => intro j; rfl
  | cons mb rest ih => intro j; simp [trainEpochPairs, ih (j + 1)]

/-- The combined batch at step `i` pairs the `i`-th majority batch with the
first `c` samples of the fresh shuffle created at step `i`. -/
theorem trainEpochPairs_getElem {α : Type} (sh : ℕ → List α → List α) (c : ℕ)
    (minor : List α) : ∀ (bs : List (List α)) (j i : ℕ),
      (trainEpochPairs sh c minor j bs)[i]? =
        (bs[i]?).map (fun mb => (mb, (sh (j + i) minor).take c)) := by
  intro bs
  induction bs with
  | nil => intro j i; simp [trainEpochPairs]
  | cons mb rest ih =>
    intro j i
    cases i with
    | zero => simp [trainEpochPairs]
    | succ i =>
      simp only [trainEpochPairs, List.getElem?_cons_succ, ih (j + 1) i]
      rw [Nat.add_assoc, Nat.add_comm 1 i]

/-- C4 counterexample: configured batch size 10 and covid percent 0.3 over a
majority pool of 8 samples and a minority pool of 3 give combined batch sizes
`[10, 4]` — the last combined batch has 4 samples, not 10. -/
theorem C4_counterexample :
    (epochBatches (fun _ l => l) 10 (3/10) (List.range 8)
        (List.range 3)).map combinedSize = [10, 4] ∧ (4 : ℕ) ≠ 10 := by
  have h3 : (covid_size 10 (3/10)).toNat = 3 := by
    norm_num [covid_size, pyInt]; rfl
  have h7 : majorityBatchSize 10 (3/10) = 7 := by rw [majorityBatchSize, h3]
  refine ⟨?_, by decide⟩
  rw [epochBatches, h3, h7]
  decide

/-- C4 amended: every combined batch contains exactly the configured total
batch size `B` of samples, except possibly the last one of the epoch — the
last combined batch also has `B` samples when the majority batch size
`B - covid_size` divides the majority pool size (it is smaller otherwise, as
the counterexample shows). Requires a minority pool of at least `covid_size`
samples and `covid_size < B`. -/
theorem C4_combined_batch_size {α : Type} (shuffles : ℕ → List α → List α)
    (B : ℕ) (p : ℚ) (maj minor : List α) (pr : List α × List α) (i : ℕ)
    (hshuffle : (shuffles i minor).length = minor.length)
    (hc : (covid_size B p).toNat ≤ minor.length)
    (hB : (covid_size B p).toNat < B)
    (h : (epochBatches shuffles B p maj minor)[i]? = some pr)
    (hlast : i + 1 < (epochBatches shuffles B p maj minor).length ∨
      majorityBatchSize B p ∣ maj.length) :
    combinedSize pr = B := by
  rw [epochBatches, trainEpochPairs_getElem, Option.map_eq_some'] at h
  rw [epochBatches, trainEpochPairs_length] at hlast
  obtain ⟨mb, hmb, hpr⟩ := h
  rw [chunks] at hmb hlast
  have hk1 : 1 ≤ majorityBatchSize B p := by
    rw [majorityBatchSize]; omega
  have hmbl : mb.length = majorityBatchSize B p :=
    chunksAux_getElem_length (majorityBatchSize B p) hk1 maj.length maj i mb
      (le_refl _) hmb hlast
  subst hpr
  rw [combinedSize]
  simp only [List.length_take, Nat.zero_add, hshuffle, hmbl]
  rw [min_eq_left hc, majorityBatchSize, Nat.sub_add_cancel (Nat.le_of_lt hB)]

/-- C4 witness: batch size 10, covid percent 0.3, a majority pool of 14
samples (divisible by the majority batch size 7) and a minority pool of 3:
the last combined batch has exactly 10 samples. -/
theorem C4_combined_batch_size_witness :
    combinedSize (([7, 8, 9, 10, 11, 12, 13], [0, 1, 2]) :
      List ℕ × List ℕ) = 10 := by
  have h3 : (covid_size 10 (3/10)).toNat = 3 := by
    norm_num [covid_size, pyInt]; rfl
  have h7 : majorityBatchSize 10 (3/10) = 7 := by rw [majorityBatchSize, h3]
  exact C4_combined_batch_size (fun _ l => l) 10 (3/10) (List.range 14)
    (List.range 3) ([7, 8, 9, 10, 11, 12, 13], [0, 1, 2]) 1
    rfl
    (by rw [h3]; decide)
    (by rw [h3]; decide)
    (by rw [epochBatches, h3, h7]; decide)
    (Or.inr (by rw [h7]; decide))

/-- C9: the minority batch of step `i` is the head of a freshly created
iterator over the minority loader — the first `covid_size` samples of the
fresh shuffle of the whole minority pool made at step `i`. It is therefore
independent of the majority loader's pool and position and of what any other
step drew: a second run over a different majority pool, whose shuffles agree
with the first run's only at step `i`, draws the same minority batch there. -/
theorem C9_fresh_minority_iterator {α : Type} (sh sh' : ℕ → List α → List α)
    (B : ℕ) (p : ℚ) (maj maj' minor : List α) (i : ℕ)
    (pr pr' : List α × List α)
    (h : (epochBatches sh B p maj minor)[i]? = some pr)
    (h' : (epochBatches sh' B p maj' minor)[i]? = some pr')
    (hsh : sh i minor = sh' i minor) :
    pr.2 = (sh i minor).take (covid_size B p).toNat ∧ pr.2 = pr'.2 := by
  rw [epochBatches, trainEpochPairs_getElem, Option.map_eq_some'] at h h'
  obtain ⟨mb, hmb, hpr⟩ := h
  obtain ⟨mb', hmb', hpr'⟩ := h'
  subst hpr
  subst hpr'
  constructor
  · simp
  · simp [Nat.zero_add, hsh]

/-- C9 witness: two runs with majority pools of 8 and 14 samples and shuffle
oracles that agree only at step 1 draw the same minority batch at step 1,
namely the first 3 samples of that step's fresh shuffle. -/
theorem C9_fresh_minority_iterator_witness :
    (([7], [0, 1, 2]) : List ℕ × List ℕ).2 =
      ((fun (_ : ℕ) (l : List ℕ) => l) 1 (List.range 3)).take
        (covid_size 10 (3/10)).toNat ∧
    (([7], [0, 1, 2]) : List ℕ × List ℕ).2 =
      (([7, 8, 9, 10, 11, 12, 13], [0, 1, 2]) : List ℕ × List ℕ).2 := by
  have h3 : (covid_size 10 (3/10)).toNat = 3 := by
    norm_num [covid_size, pyInt]; rfl
  have h7 : majorityBatchSize 10 (3/10) = 7 := by rw [majorityBatchSize, h3]
  exact C9_fresh_minority_iterator (fun _ l => l)
    (fun n l => if n = 1 then l else l.reverse) 10 (3/10) (List.range 8)
    (List.range 14) (List.range 3) 1 ([7], [0, 1, 2])
    ([7, 8, 9, 10, 11, 12, 13], [0, 1, 2])
    (by rw [epochBatches, h3, h7]; decide)
    (by rw [epochBatches, h3, h7]; decide)
    rfl

/-- The updated `best_sensit` of the checkpoint policy does not depend on
`pat_track` or on the epoch index. -/
theorem checkpointStep_fst_pat (b : ℚ) (pt pt' e e' : ℕ) (acc sens : ℚ) :
    (checkpointStep b pt e acc sens).1 =
      (checkpointStep b pt' e' acc sens).1 := by
  unfold checkpointStep
  split_ifs <;> rfl

/-- The state after one loop body: `best_sensit` stepped, `pat_track` kept. -/
theorem epochBody_fst (metrics : ℕ → ℚ × ℚ) (e : ℕ) (s : LoopState) :
    (epochBody metrics e s).1 =
      ⟨stepBest metrics e s.best_sensit, s.pat_track⟩ := by
  unfold epochBody stepBest
  dsimp only
  rw [checkpointStep_fst_pat s.best_sensit s.pat_track 0 e e]

/-- The state after the loop: `best_sensit` folded by `bestFrom`, `pat_track`
untouched. -/
theorem runFrom_fst (metrics : ℕ → ℚ × ℚ) (n : ℕ) :
    ∀ (e : ℕ) (s : LoopState),
      (runFrom metrics s e n).1 =
        ⟨bestFrom metrics e n s.best_sensit, s.pat_track⟩ := by
  induction n with
  | zero => intro e s; rfl
  | succ n ih =>
    intro e s
    show (runFrom metrics (epochBody metrics e s).1 (e + 1) n).1 = _
    rw [ih (e + 1) (epochBody metrics e s).1, epochBody_fst]
    rfl

/-- One epoch never decreases `best_sensit`. -/
theorem stepBest_le (metrics : ℕ → ℚ × ℚ) (e : ℕ) (b : ℚ) :
    b ≤ stepBest metrics e b := by
  unfold stepBest checkpointStep
  split_ifs <;> simp [le_max_right]

/-- Any number of epochs never decreases `best_sensit`. -/
theorem bestFrom_le (metrics : ℕ → ℚ × ℚ) (n : ℕ) :
    ∀ (e : ℕ) (b : ℚ), b ≤ bestFrom metrics e n b := by
  induction n with
  | zero => intro e b; exact le_refl b
  | succ n ih =>
    intro e b
    exact le_trans (stepBest_le metrics e b) (ih (e + 1) (stepBest metrics e b))

/-- Splitting a run of `k + m` epochs at epoch `k`. -/
theorem bestFrom_add (metrics : ℕ → ℚ × ℚ) (k : ℕ) :
    ∀ (m e : ℕ) (b : ℚ),
      bestFrom metrics e (k + m) b =
        bestFrom metrics (e + k) m (bestFrom metrics e k b) := by
  induction k with
  | zero => intro m e b; rw [Nat.zero_add, Nat.add_zero]; rfl
  | succ k ih =>
    intro m e b
    show bestFrom metrics e (k + 1 + m) b = _
    rw [show k + 1 + m = (k + m) + 1 from by omega]
    show bestFrom metrics (e + 1) (k + m) (stepBest metrics e b) = _
    rw [ih m (e + 1) (stepBest metrics e b)]
    rw [show e + 1 + k = e + (k + 1) from by omega]
    rfl

/-- When an epoch changes `best_sensit`, the epoch qualified (accuracy at
least 0.80, sensitivity strictly above the tracked value) and the new value
is that epoch's sensitivity. -/
theorem stepBest_ne (metrics : ℕ → ℚ × ℚ) (e : ℕ) (b : ℚ)
    (h : stepBest metrics e b ≠ b) :
    ((0.80 : ℚ) ≤ (metrics e).2 ∧ b < (metrics e).1) ∧
      stepBest metrics e b = (metrics e).1 := by
  unfold stepBest checkpointStep at h ⊢
  split_ifs at h ⊢ with h1 h2
  · exact ⟨⟨h1, h2⟩, max_eq_left (le_of_lt h2)⟩
  · simp at h
  · simp at h

/-- C2: across a run, `best_sensit` is monotonically non-decreasing — after
epoch `e2 ≥ e1` it is at least its value after epoch `e1` — and it changes
only in an epoch whose accuracy is at least 0.80 and whose sensitivity
strictly exceeds the tracked value, in which case it becomes that
sensitivity. -/
theorem C2_best_sensit_monotone (metrics : ℕ → ℚ × ℚ) (b0 : ℚ) (e1 e2 : ℕ)
    (h : e1 ≤ e2) :
    (train_model_run metrics (e1 + 1) b0).1.best_sensit ≤
      (train_model_run metrics (e2 + 1) b0).1.best_sensit ∧
    ∀ e : ℕ, (train_model_run metrics (e + 1) b0).1.best_sensit ≠
        (train_model_run metrics e b0).1.best_sensit →
      ((0.80 : ℚ) ≤ (metrics e).2 ∧
        (train_model_run metrics e b0).1.best_sensit < (metrics e).1) ∧
      (train_model_run metrics (e + 1) b0).1.best_sensit = (metrics e).1 := by
  have hrun : ∀ n : ℕ,
      (train_model_run metrics n b0).1.best_sensit =
        bestFrom metrics 0 n b0 := by
    intro n
    rw [train_model_run, runFrom_fst]
  have hdec : ∀ e : ℕ, bestFrom metrics 0 (e + 1) b0 =
      stepBest metrics e (bestFrom metrics 0 e b0) := by
    intro e
    rw [bestFrom_add metrics e 1 0 b0, Nat.zero_add]
    rfl
  constructor
  · rw [hrun, hrun]
    obtain ⟨d, rfl⟩ := Nat.exists_eq_add_of_le h
    rw [show e1 + d + 1 = (e1 + 1) + d from by omega,
      bestFrom_add metrics (e1 + 1) d 0 b0]
    exact bestFrom_le metrics d (0 + (e1 + 1)) _
  · intro e hne
    rw [hrun, hrun, hdec e] at hne ⊢
    exact stepBest_ne metrics e (bestFrom metrics 0 e b0) hne

/-- C2 witness: a concrete 3-epoch run with constant metrics. -/
theorem C2_best_sensit_monotone_witness :
    (train_model_run (fun _ => (9/10, 9/10)) (0 + 1) 0).1.best_sensit ≤
      (train_model_run (fun _ => (9/10, 9/10)) (2 + 1) 0).1.best_sensit :=
  (C2_best_sensit_monotone (fun _ => (9/10, 9/10)) 0 0 2 (by norm_num)).1

/-- Peeling the last epoch off a run. -/
theorem runFrom_succ (metrics : ℕ → ℚ × ℚ) (n : ℕ) :
    ∀ (e : ℕ) (s : LoopState),
      runFrom metrics s e (n + 1) =
        ((epochBody metrics (e + n) (runFrom metrics s e n).1).1,
          (runFrom metrics s e n).2 ++
            (epochBody metrics (e + n) (runFrom metrics s e n).1).2) := by
  induction n with
  | zero =>
    intro e s
    show ((runFrom metrics (epochBody metrics e s).1 (e + 1) 0).1,
        (epochBody metrics e s).2 ++
          (runFrom metrics (epochBody metrics e s).1 (e + 1) 0).2) = _
    simp [runFrom]
  | succ n ih =>
    intro e s
    show ((runFrom metrics (epochBody metrics e s).1 (e + 1) (n + 1)).1,
        (epochBody metrics e s).2 ++
          (runFrom metrics (epochBody metrics e s).1 (e + 1) (n + 1)).2) = _
    rw [ih (e + 1) (epochBody metrics e s).1]
    have hrw : runFrom metrics s e (n + 1) =
        ((runFrom metrics (epochBody metrics e s).1 (e + 1) n).1,
          (epochBody metrics e s).2 ++
            (runFrom metrics (epochBody metrics e s).1 (e + 1) n).2) := rfl
    rw [hrw]
    rw [show e + 1 + n = e + (n + 1) from by omega]
    simp [List.append_assoc]

/-- C6: the orchestrator's loop runs exactly the configured number of epochs,
and each epoch's trace is the strict sequence: training epoch, validation
pass, scheduler step on the returned accuracy, checkpoint-policy application,
then the two validation plot emissions — epoch after epoch with no
interleaving. -/
theorem C6_strict_sequence (metrics : ℕ → ℚ × ℚ) (epochs : ℕ) (b0 : ℚ) :
    (train_model_run metrics epochs b0).2 =
      (List.range epochs).flatMap (fun e =>
        [Event.trainE e, Event.valE e, Event.schedStep e (metrics e).2,
         Event.policy e (checkpointStep (bestFrom metrics 0 e b0) 0 e
            (metrics e).2 (metrics e).1).2,
         Event.plotSens e (metrics e).1, Event.plotAcc e (metrics e).2]) := by
  induction epochs with
  | zero => rfl
  | succ n ih =>
    rw [train_model_run] at ih ⊢
    rw [runFrom_succ, List.range_succ, List.flatMap_append, ← ih]
    rw [runFrom_fst, Nat.zero_add]
    simp [epochBody]

/-- A saved checkpoint's `valtrack` field is the `pat_track` passed in. -/
theorem checkpointStep_valtrack (b : ℚ) (pt e : ℕ) (acc sens : ℚ)
    (ck : Checkpoint) (h : (checkpointStep b pt e acc sens).2 = some ck) :
    ck.valtrack = pt := by
  unfold checkpointStep at h
  split_ifs at h
  simp_all
  rw [← h]

/-- Every checkpoint saved along a run carries the run's `pat_track`. -/
theorem runFrom_policy_valtrack (metrics : ℕ → ℚ × ℚ) (n : ℕ) :
    ∀ (e : ℕ) (s : LoopState) (i : ℕ) (ck : Checkpoint),
      Event.policy i (some ck) ∈ (runFrom metrics s e n).2 →
      ck.valtrack = s.pat_track := by
  induction n with
  | zero => intro e s i ck h; simp [runFrom] at h
  | succ n ih =>
    intro e s i ck h
    have hsplit : (runFrom metrics s e (n + 1)).2 =
        (epochBody metrics e s).2 ++
          (runFrom metrics (epochBody metrics e s).1 (e + 1) n).2 := rfl
    rw [hsplit, List.mem_append] at h
    rcases h with h | h
    · simp [epochBody] at h
      obtain ⟨-, h2⟩ := h
      exact checkpointStep_valtrack _ _ _ _ _ ck h2.symm
    · have := ih (e + 1) (epochBody metrics e s).1 i ck h
      rwa [epochBody_fst] at this

/-- C10: `pat_track` keeps its initial value 0 for the whole run, every saved
checkpoint persists `valtrack = 0`, and the checkpoint decision and the
`best_sensit` update are independent of `pat_track` (and of the epoch
index). -/
theorem C10_pat_track_inert (metrics : ℕ → ℚ × ℚ) (epochs : ℕ) (b0 : ℚ) :
    (train_model_run metrics epochs b0).1.pat_track = 0 ∧
    (∀ (e : ℕ) (ck : Checkpoint),
      Event.policy e (some ck) ∈ (train_model_run metrics epochs b0).2 →
      ck.valtrack = 0) ∧
    (∀ (b : ℚ) (p1 p2 e1 e2 : ℕ) (acc sens : ℚ),
      (checkpointStep b p1 e1 acc sens).1 =
        (checkpointStep b p2 e2 acc sens).1 ∧
      (checkpointStep b p1 e1 acc sens).2.isSome =
        (checkpointStep b p2 e2 acc sens).2.isSome) := by
  refine ⟨?_, ?_, ?_⟩
  · rw [train_model_run, runFrom_fst]
  · intro e ck h
    exact runFrom_policy_valtrack metrics epochs 0 ⟨b0, 0⟩ e ck h
  · intro b p1 p2 e1 e2 acc sens
    refine ⟨checkpointStep_fst_pat b p1 p2 e1 e2 acc sens, ?_⟩
    unfold checkpointStep
    split_ifs <;> rfl
